import Mathlib

/-!
Shallow embedding of `src/project2_17C_chessGame.cpp` (a two-player chess engine).

Conventions used throughout:
* a board file `a`..`h` is kept as its character code `97`..`104`, because the
  source stores the file as a `char` and does integer arithmetic on it;
* ranks are the integers `1`..`8` (the source does no bounds clamping, so the
  embedding uses unbounded `Int` in both coordinates, exactly like the source);
* `std::unordered_map<Position, ChessPiece*>` is modelled as an association
  list with unique keys whose stored value is an `Option ChessPiece`: a key
  that is present with value `none` models an entry holding a null pointer
  (`operator[]` on a missing key inserts exactly such an entry before
  returning it, and the source relies on that behaviour);
* `std::set<Position>` results are modelled as lists of distinct squares; the
  source only ever tests membership in them or iterates them, and where
  iteration order matters for a concrete theorem the input is chosen so that
  the construction order below coincides with the `std::set` order;
* places where the source dereferences a null pointer or calls
  `unordered_map::at` on a missing key are undefined behaviour in C++; the
  embedding makes them total with an explicitly commented, conservative
  completion, and no theorem below depends on such a completion.
-/

namespace ChessGame

inductive Color where
  | WHITE : Color
  | BLACK : Color
deriving DecidableEq, Repr

/-- `Position` from the source: a file stored as a character code and a rank. -/
structure Position where
  column : Int
  row : Int
deriving DecidableEq, Repr

inductive PieceKind where
  | pawn
  | rook
  | knight
  | bishop
  | queen
  | king
deriving DecidableEq, Repr

/-- One chess piece: the subclass tag, its color, its recorded position and
its `hasMoved` flag, matching the `ChessPiece` base-class data. -/
structure ChessPiece where
  kind : PieceKind
  color : Color
  pos : Position
  hasMoved : Bool
deriving DecidableEq, Repr

/-- `toString()` of each `ChessPiece` subclass (uppercase = White). -/
def pieceToString (p : ChessPiece) : String :=
  match p.kind, p.color with
  | PieceKind.pawn, Color.WHITE => "P"
  | PieceKind.pawn, Color.BLACK => "p"
  | PieceKind.rook, Color.WHITE => "R"
  | PieceKind.rook, Color.BLACK => "r"
  | PieceKind.knight, Color.WHITE => "N"
  | PieceKind.knight, Color.BLACK => "n"
  | PieceKind.bishop, Color.WHITE => "B"
  | PieceKind.bishop, Color.BLACK => "b"
  | PieceKind.queen, Color.WHITE => "Q"
  | PieceKind.queen, Color.BLACK => "q"
  | PieceKind.king, Color.WHITE => "K"
  | PieceKind.king, Color.BLACK => "k"

/-- The occupancy map `std::unordered_map<Position, ChessPiece*>`. -/
abbrev PieceMap := List (Position × Option ChessPiece)

/-- `map.find(p)`: `none` means the key is absent (`find == end()`); a result
`some v` returns the stored pointer `v`, which may itself be null (`none`). -/
def mapFind? : PieceMap → Position → Option (Option ChessPiece)
  | [], _ => none
  | (k, v) :: rest, p => if k = p then some v else mapFind? rest p

/-- `map[p] = v`: overwrite the entry for `p`, or append a new one. -/
def mapInsert : PieceMap → Position → Option ChessPiece → PieceMap
  | [], p, v => [(p, v)]
  | (k, w) :: rest, p, v => if k = p then (p, v) :: rest else (k, w) :: mapInsert rest p v

/-- `map.erase(p)`: drop the entry with key `p`, if any. -/
def mapErase : PieceMap → Position → PieceMap
  | [], _ => []
  | (k, w) :: rest, p => if k = p then rest else (k, w) :: mapErase rest p

/-- Reading `map[p]` through `operator[]`: on a missing key this
default-constructs a null pointer entry and returns it, so the read has the
side effect of inserting `(p, none)` into the map. -/
def opIndex (m : PieceMap) (p : Position) : Option ChessPiece × PieceMap :=
  match mapFind? m p with
  | some v => (v, m)
  | none => (none, mapInsert m p none)

/-- The in-bounds test the source repeats inline:
`row >= 1 && row <= 8 && column >= 'a' && column <= 'h'`. -/
def onBoard (p : Position) : Bool :=
  decide (1 ≤ p.row ∧ p.row ≤ 8 ∧ 97 ≤ p.column ∧ p.column ≤ 104)

/-- The test `board.at(q)->getColor() != color` applied to a stored pointer.
Dereferencing a null pointer is undefined behaviour in the source; the
completion here treats a null entry as not holding an opposing piece. -/
def oppColorPtr (v : Option ChessPiece) (c : Color) : Bool :=
  match v with
  | some q => decide (q.color ≠ c)
  | none => false

/-- `Pawn::legalMoves`: forward steps while the squares are empty (two from
the unmoved state), the two diagonal captures, and the en-passant branch.
If `lastMovePos` equals an adjacent square that is absent from the map,
`board.at(lastMovePos)` would throw in the source; the completion adds no
move there. -/
def pawnLegalMoves (self : ChessPiece) (board : PieceMap) (lastMovePos : Position)
    (enPassantAvailable : Bool) : List Position :=
  let direction : Int := if self.color = Color.WHITE then 1 else -1
  let oneStep : Position := ⟨self.pos.column, self.pos.row + direction⟩
  let forward : List Position :=
    if mapFind? board oneStep = none then
      if self.hasMoved = false then
        let twoStep : Position := ⟨self.pos.column, self.pos.row + 2 * direction⟩
        if mapFind? board twoStep = none then [oneStep, twoStep] else [oneStep]
      else [oneStep]
    else []
  let capture : Int → List Position := fun dc =>
    let capturePos : Position := ⟨self.pos.column + dc, self.pos.row + direction⟩
    match mapFind? board capturePos with
    | some v => if oppColorPtr v self.color then [capturePos] else []
    | none => []
  let enPassant : List Position :=
    if enPassantAvailable = true ∧ self.hasMoved = false then
      let leftEnPassant : Position := ⟨self.pos.column - 1, self.pos.row⟩
      let rightEnPassant : Position := ⟨self.pos.column + 1, self.pos.row⟩
      if lastMovePos = leftEnPassant ∨ lastMovePos = rightEnPassant then
        match mapFind? board lastMovePos with
        | some (some adjacentPawn) =>
            if pieceToString adjacentPawn = (if self.color = Color.WHITE then "p" else "P")
                ∧ adjacentPawn.hasMoved = false then
              [⟨lastMovePos.column, self.pos.row + direction⟩]
            else []
        | some none => []
        | none => []
      else []
    else []
  forward ++ capture (-1) ++ capture 1 ++ enPassant

def oneToEight : List Int := [1, 2, 3, 4, 5, 6, 7, 8]

/-- The rank/file generation shared verbatim by `Rook::legalMoves` and the
first loop of `Queen::legalMoves`: every square of the piece's file except
its own, then every square of its rank except its own.  The source never
consults the board here (no ray stopping). -/
def rookLineMoves (pos : Position) : List Position :=
  oneToEight.filterMap
    (fun i => if i ≠ pos.row then some ⟨pos.column, i⟩ else none)
  ++ oneToEight.filterMap
    (fun i => if i ≠ pos.column - 97 + 1 then some ⟨97 + i - 1, pos.row⟩ else none)

/-- `Rook::legalMoves` — its `board`, `lastMovePos` and `enPassantAvailable`
parameters are unused in the source. -/
def rookLegalMoves (self : ChessPiece) : List Position :=
  rookLineMoves self.pos

/-- `Knight::legalMoves`: the eight L-offsets (`dx` added to the rank,
`dy` added to the file, exactly as the source does), filtered to bounds
only.  The source never consults the board here. -/
def knightLegalMoves (self : ChessPiece) : List Position :=
  let dx : List Int := [2, 2, -2, -2, 1, 1, -1, -1]
  let dy : List Int := [1, -1, 1, -1, 2, -2, 2, -2]
  (dx.zip dy).filterMap (fun d =>
    let newRow := self.pos.row + d.1
    let newCol := self.pos.column + d.2
    if 1 ≤ newRow ∧ newRow ≤ 8 ∧ 97 ≤ newCol ∧ newCol ≤ 104 then
      some ⟨newCol, newRow⟩
    else none)

/-- One square probe of the diagonal loop shared by bishop and queen:
returns the squares inserted (zero or one) and whether the `break` runs.
The `break` is only reachable after an insertion, i.e. when the square is
occupied by an opposing piece; a same-color occupant inserts nothing and
does not stop the ray. -/
def diagProbe (board : PieceMap) (c : Color) (q : Position) : List Position × Bool :=
  if onBoard q then
    match mapFind? board q with
    | none => ([q], false)
    | some v => if oppColorPtr v c then ([q], true) else ([], false)
  else ([], false)

/-- Iteration `i` of the diagonal loop: the four diagonal squares at offset
`i` are probed in source order, and a `break` on any of them abandons the
rest of the iteration (and, via `diagLoop`, the whole loop). -/
def diagStep (board : PieceMap) (c : Color) (pos : Position) (i : Int) :
    List Position × Bool :=
  let r1 := diagProbe board c ⟨pos.column + i, pos.row + i⟩
  if r1.2 then (r1.1, true) else
  let r2 := diagProbe board c ⟨pos.column - i, pos.row + i⟩
  if r2.2 then (r1.1 ++ r2.1, true) else
  let r3 := diagProbe board c ⟨pos.column + i, pos.row - i⟩
  if r3.2 then (r1.1 ++ r2.1 ++ r3.1, true) else
  let r4 := diagProbe board c ⟨pos.column - i, pos.row - i⟩
  (r1.1 ++ r2.1 ++ r3.1 ++ r4.1, r4.2)

/-- The `for (i = 1; i <= 8; ++i)` diagonal loop with its single shared
`break`. -/
def diagLoop (board : PieceMap) (c : Color) (pos : Position) : Nat → Int → List Position
  | 0, _ => []
  | n + 1, i =>
      let r := diagStep board c pos i
      if r.2 then r.1 else r.1 ++ diagLoop board c pos n (i + 1)

def diagMoves (board : PieceMap) (c : Color) (pos : Position) : List Position :=
  diagLoop board c pos 8 1

/-- `Bishop::legalMoves`. -/
def bishopLegalMoves (self : ChessPiece) (board : PieceMap) : List Position :=
  diagMoves board self.color self.pos

/-- `Queen::legalMoves`: the rook-style rank/file loop followed by a diagonal
loop textually identical to the bishop's. -/
def queenLegalMoves (self : ChessPiece) (board : PieceMap) : List Position :=
  rookLineMoves self.pos ++ diagMoves board self.color self.pos

/-- `King::legalMoves`: the eight adjacent squares (`dx` added to the file,
`dy` added to the rank), in bounds, empty or holding an opposing piece. -/
def kingLegalMoves (self : ChessPiece) (board : PieceMap) : List Position :=
  let ds : List (Int × Int) :=
    [(-1, -1), (-1, 0), (-1, 1), (0, -1), (0, 1), (1, -1), (1, 0), (1, 1)]
  ds.filterMap (fun d =>
    let newPos : Position := ⟨self.pos.column + d.1, self.pos.row + d.2⟩
    if onBoard newPos then
      match mapFind? board newPos with
      | none => some newPos
      | some v => if oppColorPtr v self.color then some newPos else none
    else none)

/-- The virtual dispatch of `legalMoves` over the piece subclasses; unused
parameters are dropped where a subclass ignores them. -/
def legalMoves (self : ChessPiece) (board : PieceMap) (lastMovePos : Position)
    (enPassantAvailable : Bool) : List Position :=
  match self.kind with
  | PieceKind.pawn => pawnLegalMoves self board lastMovePos enPassantAvailable
  | PieceKind.rook => rookLegalMoves self
  | PieceKind.knight => knightLegalMoves self
  | PieceKind.bishop => bishopLegalMoves self board
  | PieceKind.queen => queenLegalMoves self board
  | PieceKind.king => kingLegalMoves self board

/-- The `Board` state: occupancy map, side to move, last-move square,
en-passant flag and the four castling-rights flags. -/
structure Board where
  pieceMap : PieceMap
  turn : Color
  lastMovePos : Position
  enPassantAvailable : Bool
  whiteCastleKingSide : Bool
  whiteCastleQueenSide : Bool
  blackCastleKingSide : Bool
  blackCastleQueenSide : Bool
deriving DecidableEq, Repr

/-- `turn = (turn == WHITE) ? BLACK : WHITE`. -/
def oppColor : Color → Color
  | Color.WHITE => Color.BLACK
  | Color.BLACK => Color.WHITE

def canCastleKingSide (s : Board) (c : Color) : Bool :=
  if c = Color.WHITE then s.whiteCastleKingSide else s.blackCastleKingSide

def canCastleQueenSide (s : Board) (c : Color) : Bool :=
  if c = Color.WHITE then s.whiteCastleQueenSide else s.blackCastleQueenSide

/-- `Board::updateCastlingRights`: only the `"king"` piece-type string clears
any flags; the `"queen"` string (passed by the queen-side castling branch)
matches no branch and changes nothing. -/
def updateCastlingRights (s : Board) (c : Color) (pieceType : String) : Board :=
  if c = Color.WHITE then
    if pieceType = "king" then
      { s with whiteCastleKingSide := false, whiteCastleQueenSide := false }
    else s
  else
    if pieceType = "king" then
      { s with blackCastleKingSide := false, blackCastleQueenSide := false }
    else s

/-- The common tail of `Board::movePiece` (source lines 567-585): optional
en-passant removal, then `piece->setPosition(toPos); piece->markAsMoved();
pieceMap[toPos] = piece; pieceMap.erase(fromPos);`, then
`lastMovePos = toPos; enPassantAvailable = false;` and the turn flip.
Note the en-passant flag is reset to `false` unconditionally here, after
every successful move. -/
def finishMove (s : Board) (piece : ChessPiece) (fromPos toPos : Position)
    (enPassantCapture : Bool) : Bool × Board :=
  let m0 := if enPassantCapture then mapErase s.pieceMap ⟨toPos.column, fromPos.row⟩
            else s.pieceMap
  let moved : ChessPiece := { piece with pos := toPos, hasMoved := true }
  let m1 := mapErase (mapInsert m0 toPos (some moved)) fromPos
  (true, { s with pieceMap := m1, lastMovePos := toPos,
                  enPassantAvailable := false, turn := oppColor s.turn })

/-- A castling branch of `Board::movePiece` (both sides have the same shape):
`pieceMap[rookPos]` is read through `operator[]` (inserting a null entry when
the corner is empty); when a same-color rook is there, the king object is set
to `newKingPos`, the rook object is set to file `e` of the same rank (the
rook's map entry stays at `rookPos` — only the object's recorded position
changes), and `updateCastlingRights` runs.  In every case control falls
through to `finishMove`, which moves the king to `toPos`. -/
def castleBranch (s : Board) (piece : ChessPiece) (fromPos toPos rookPos newKingPos : Position)
    (pieceType : String) : Bool × Board :=
  let r := opIndex s.pieceMap rookPos
  match r.1 with
  | some rook =>
      if pieceToString rook = (if piece.color = Color.WHITE then "R" else "r") then
        let m2 := mapInsert r.2 rookPos (some { rook with pos := ⟨101, fromPos.row⟩ })
        let s2 := updateCastlingRights { s with pieceMap := m2 } piece.color pieceType
        finishMove s2 { piece with pos := newKingPos } fromPos toPos false
      else finishMove { s with pieceMap := r.2 } piece fromPos toPos false
  | none => finishMove { s with pieceMap := r.2 } piece fromPos toPos false

/-- `Board::movePiece` (source lines 506-586).  The pseudo-legality check is
performed only in the pawn branch; a king reaching a castle destination with
rights intact triggers the castling special case; every other piece falls
straight through to `finishMove`.  A null stored pointer at `fromPos` would
be dereferenced in the source (undefined behaviour); the completion fails
without state change. -/
def movePiece (s : Board) (fromPos toPos : Position) : Bool × Board :=
  match mapFind? s.pieceMap fromPos with
  | none => (false, s)
  | some none => (false, s)
  | some (some piece) =>
    if piece.kind = PieceKind.pawn then
      let moves := pawnLegalMoves piece s.pieceMap s.lastMovePos s.enPassantAvailable
      if toPos ∈ moves then
        let enPassantCapture : Bool :=
          s.enPassantAvailable && decide (s.lastMovePos = ⟨toPos.column, fromPos.row⟩)
        let s1 : Board :=
          { s with enPassantAvailable := decide ((toPos.row - fromPos.row).natAbs = 2) }
        finishMove s1 piece fromPos toPos enPassantCapture
      else (false, s)
    else if pieceToString piece = (if piece.color = Color.WHITE then "K" else "k")
        ∧ canCastleKingSide s piece.color = true ∧ toPos = ⟨103, fromPos.row⟩ then
      castleBranch s piece fromPos toPos ⟨104, fromPos.row⟩ ⟨102, fromPos.row⟩ ("king")
    else if pieceToString piece = (if piece.color = Color.WHITE then "K" else "k")
        ∧ canCastleQueenSide s piece.color = true ∧ toPos = ⟨99, fromPos.row⟩ then
      castleBranch s piece fromPos toPos ⟨97, fromPos.row⟩ ⟨100, fromPos.row⟩ ("queen")
    else
      finishMove s piece fromPos toPos false

/-- `Board::findKing`: the first entry of the given color whose `toString()`
is the king symbol.  Entries holding a null pointer would be dereferenced in
the source; the completion skips them. -/
def findKing (m : PieceMap) (c : Color) : Option ChessPiece :=
  match m with
  | [] => none
  | (_, some q) :: rest =>
      if q.color = c ∧ pieceToString q = (if c = Color.WHITE then "K" else "k") then some q
      else findKing rest c
  | (_, none) :: rest => findKing rest c

/-- `Board::isInCheck`: whether any opposing piece's pseudo-legal move set
contains the king's recorded square.  When `findKing` comes back empty the
source dereferences a null pointer; the completion reports `false`. -/
def isInCheck (s : Board) (c : Color) : Bool :=
  match findKing s.pieceMap c with
  | none => false
  | some kingPiece =>
    s.pieceMap.any (fun e =>
      match e.2 with
      | some q =>
          decide (q.color ≠ c) &&
            decide (kingPiece.pos ∈ legalMoves q s.pieceMap s.lastMovePos s.enPassantAvailable)
      | none => false)

/-- `Board::simulateMoveAndCheck`: both `pieceMap[from]` and `pieceMap[to]`
are read through `operator[]` (inserting null entries for missing keys), the
piece is relocated, check is evaluated, and the move is reverted by writing
the saved pointers back — including writing a null pointer back to `to` when
that square was empty, which leaves a extra null entry in the map. -/
def simulateMoveAndCheck (s : Board) (fromPos toPos : Position) (c : Color) :
    Bool × Board :=
  let r1 := opIndex s.pieceMap fromPos
  let r2 := opIndex r1.2 toPos
  let movedPtr := r1.1.map (fun q => { q with pos := toPos })
  let m3 := mapInsert r2.2 toPos movedPtr
  let m4 := mapErase m3 fromPos
  let inCheck := isInCheck { s with pieceMap := m4 } c
  let backPtr := r1.1.map (fun q => { q with pos := fromPos })
  let m5 := mapInsert m4 fromPos backPtr
  let m6 := mapInsert m5 toPos r2.1
  (inCheck, { s with pieceMap := m6 })

/-- The inner move loop of `Board::isCheckmate` / `Board::isStalemate`:
trial-apply each destination; the first trial that leaves the king out of
check returns the (mutated) board early. -/
def moveScan (fromPos : Position) (c : Color) :
    List Position → Board → Option Board × Board
  | [], s => (none, s)
  | mv :: more, s =>
    let r := simulateMoveAndCheck s fromPos mv c
    if r.1 then moveScan fromPos c more r.2 else (some r.2, r.2)

/-- The outer piece loop of `Board::isCheckmate` / `Board::isStalemate` (the
two functions share it verbatim).  The C++ iterates the live map while the
trial moves mutate it — undefined behaviour for `unordered_map`; the
embedding iterates a snapshot of the entry list taken at the call, while
move generation and the trials use the current (mutating) map, which is the
straightforward determinization. -/
def staleScan (c : Color) : List (Position × Option ChessPiece) → Board → Bool × Board
  | [], s => (true, s)
  | (k, some q) :: rest, s =>
    if q.color = c then
      let moves := legalMoves q s.pieceMap s.lastMovePos s.enPassantAvailable
      match moveScan k c moves s with
      | (some sEscape, _) => (false, sEscape)
      | (none, s2) => staleScan c rest s2
    else staleScan c rest s
  | (_, none) :: rest, s => staleScan c rest s

/-- `Board::isStalemate`; the second component is the board after the call
(the member function mutates `pieceMap` through its trial moves). -/
def isStalemate (s : Board) (c : Color) : Bool × Board :=
  if isInCheck s c then (false, s) else staleScan c s.pieceMap s

/-- `Board::isCheckmate`; the second component is the board after the call. -/
def isCheckmate (s : Board) (c : Color) : Bool × Board :=
  if isInCheck s c then staleScan c s.pieceMap s else (false, s)

/-- A `Board` with the given occupancy and the constructor's initial flags
(`lastMovePos` a1, en passant unavailable, all castling rights, White to
move). -/
def boardWith (m : PieceMap) : Board :=
  { pieceMap := m, turn := Color.WHITE, lastMovePos := ⟨97, 1⟩,
    enPassantAvailable := false,
    whiteCastleKingSide := true, whiteCastleQueenSide := true,
    blackCastleKingSide := true, blackCastleQueenSide := true }

/- Concrete pieces and positions used by the claim theorems.
File codes: a=97 b=98 c=99 d=100 e=101 f=102 g=103 h=104. -/

def whiteKingE1 : ChessPiece := ⟨PieceKind.king, Color.WHITE, ⟨101, 1⟩, false⟩

def whiteKingA1 : ChessPiece := ⟨PieceKind.king, Color.WHITE, ⟨97, 1⟩, true⟩

def blackKingE8 : ChessPiece := ⟨PieceKind.king, Color.BLACK, ⟨101, 8⟩, false⟩

def whiteRookH1 : ChessPiece := ⟨PieceKind.rook, Color.WHITE, ⟨104, 1⟩, false⟩

def whiteRookA1 : ChessPiece := ⟨PieceKind.rook, Color.WHITE, ⟨97, 1⟩, false⟩

def whiteQueenA1 : ChessPiece := ⟨PieceKind.queen, Color.WHITE, ⟨97, 1⟩, false⟩

def whiteBishopC1 : ChessPiece := ⟨PieceKind.bishop, Color.WHITE, ⟨99, 1⟩, false⟩

def whiteKnightB1 : ChessPiece := ⟨PieceKind.knight, Color.WHITE, ⟨98, 1⟩, false⟩

def whitePawnE2 : ChessPiece := ⟨PieceKind.pawn, Color.WHITE, ⟨101, 2⟩, false⟩

def whitePawnA2 : ChessPiece := ⟨PieceKind.pawn, Color.WHITE, ⟨97, 2⟩, false⟩

def whitePawnD2 : ChessPiece := ⟨PieceKind.pawn, Color.WHITE, ⟨100, 2⟩, false⟩

def blackPawnD4 : ChessPiece := ⟨PieceKind.pawn, Color.BLACK, ⟨100, 4⟩, true⟩

def knightOnlyState : Board := boardWith [(⟨98, 1⟩, some whiteKnightB1)]

def pawnOnlyState : Board := boardWith [(⟨101, 2⟩, some whitePawnE2)]

def twoKingsState : Board :=
  boardWith [(⟨97, 1⟩, some whiteKingA1), (⟨101, 8⟩, some blackKingE8)]

def kingPairState : Board :=
  boardWith [(⟨101, 1⟩, some whiteKingE1), (⟨101, 8⟩, some blackKingE8)]

def castlingState : Board :=
  boardWith [(⟨101, 1⟩, some whiteKingE1), (⟨104, 1⟩, some whiteRookH1),
             (⟨101, 8⟩, some blackKingE8)]

def enPassantSetupState : Board :=
  boardWith [(⟨101, 2⟩, some whitePawnE2), (⟨100, 4⟩, some blackPawnD4)]

def rookBlockedMap : PieceMap :=
  [(⟨97, 1⟩, some whiteRookA1), (⟨97, 2⟩, some whitePawnA2)]

def queenBlockedMap : PieceMap :=
  [(⟨97, 1⟩, some whiteQueenA1), (⟨97, 2⟩, some whitePawnA2)]

def bishopBlockedMap : PieceMap :=
  [(⟨99, 1⟩, some whiteBishopC1), (⟨100, 2⟩, some whitePawnD2)]

def knightPawnMap : PieceMap :=
  [(⟨98, 1⟩, some whiteKnightB1), (⟨100, 2⟩, some whitePawnD2)]

/-- Claim C1, as stated, is false at a concrete input: the square b5 is not
in the pseudo-legal move set of the white knight on b1 (the knight's only
L-moves from b1 are a3, c3 and d2), yet `movePiece` accepts the move b1→b5,
returns `true`, and vacates b1 — the pseudo-legality rejection does not
apply to non-pawn pieces. -/
theorem movePiece_accepts_illegal_knight_move :
    (⟨98, 5⟩ : Position) ∉
      legalMoves whiteKnightB1 knightOnlyState.pieceMap knightOnlyState.lastMovePos
        knightOnlyState.enPassantAvailable
    ∧ (movePiece knightOnlyState ⟨98, 1⟩ ⟨98, 5⟩).1 = true
    ∧ mapFind? (movePiece knightOnlyState ⟨98, 1⟩ ⟨98, 5⟩).2.pieceMap ⟨98, 1⟩ = none := by
  decide

/-- Claim C1 (amended): the pseudo-legal-set rejection is applied only to
pawns.  For every board state and every (from, to) pair, if a pawn occupies
`from` and `to` is not in that pawn's pseudo-legal move set, `movePiece`
returns `false` and leaves the state completely unchanged.  (For non-pawn
pieces no pseudo-legal check is performed, per the counterexample above.) -/
theorem movePiece_rejects_illegal_pawn_move (s : Board) (fromPos toPos : Position)
    (p : ChessPiece)
    (hfind : mapFind? s.pieceMap fromPos = some (some p))
    (hpawn : p.kind = PieceKind.pawn)
    (hnot : toPos ∉ pawnLegalMoves p s.pieceMap s.lastMovePos s.enPassantAvailable) :
    movePiece s fromPos toPos = (false, s) := by
  unfold movePiece
  rw [hfind]
  simp [hpawn, hnot]

/-- Witness for the amended C1 theorem: a lone unmoved white pawn on e2
cannot be moved to e5 (its pseudo-legal moves are exactly e3 and e4), and
`movePiece` rejects the move without any state change. -/
theorem movePiece_rejects_illegal_pawn_move_witness :
    movePiece pawnOnlyState ⟨101, 2⟩ ⟨101, 5⟩ = (false, pawnOnlyState) :=
  movePiece_rejects_illegal_pawn_move pawnOnlyState ⟨101, 2⟩ ⟨101, 5⟩ whitePawnE2
    (by decide) (by decide) (by decide)

/-- Claim C2 fails on the code: with a white king on a1 and a black king on
e8 (a position that is not stalemate), a single call to `isStalemate` for
White returns `false` but leaves the occupancy map changed — the square a2,
empty before the call, now holds an entry with a null piece pointer, because
`simulateMoveAndCheck` reads the trial destination through `operator[]`
(default-inserting a null entry) and its revert step writes that null
pointer back instead of erasing the key. -/
theorem isStalemate_does_not_restore_board :
    mapFind? twoKingsState.pieceMap ⟨97, 2⟩ = none
    ∧ (isStalemate twoKingsState Color.WHITE).1 = false
    ∧ mapFind? (isStalemate twoKingsState Color.WHITE).2.pieceMap ⟨97, 2⟩ = some none := by
  decide

/-- Claim C3 fails on the code: moving the unmoved white pawn e2→e4 is a
pawn advance of exactly two ranks and succeeds, yet the en-passant flag of
the resulting state is `false`, because `movePiece` unconditionally resets
`enPassantAvailable = false` after every successful move, overwriting the
`true` that the pawn branch just stored. -/
theorem enPassantAvailable_false_after_double_push :
    (movePiece pawnOnlyState ⟨101, 2⟩ ⟨101, 4⟩).1 = true
    ∧ (⟨101, 4⟩ : Position).row - (⟨101, 2⟩ : Position).row = 2
    ∧ (movePiece pawnOnlyState ⟨101, 2⟩ ⟨101, 4⟩).2.enPassantAvailable = false := by
  decide

/-- Claim C4 fails on the code: with a white rook on a1 blocked by its own
pawn on a2, the rook's move set contains both a2 itself (a same-color
square) and a3 (a square strictly beyond the first occupied square of the
ray) — the rank/file generation never consults the board; with a white
bishop on c1 and its own pawn on d2, the bishop's move set contains e3,
beyond the same-color blocker, because a same-color occupant neither gets
inserted nor stops the diagonal; and the queen on a1 blocked by its own
pawn on a2 likewise reaches a3. -/
theorem rays_pass_through_blockers :
    (⟨97, 2⟩ : Position) ∈ legalMoves whiteRookA1 rookBlockedMap ⟨97, 1⟩ false
    ∧ (⟨97, 3⟩ : Position) ∈ legalMoves whiteRookA1 rookBlockedMap ⟨97, 1⟩ false
    ∧ (⟨101, 3⟩ : Position) ∈ legalMoves whiteBishopC1 bishopBlockedMap ⟨97, 1⟩ false
    ∧ (⟨97, 3⟩ : Position) ∈ legalMoves whiteQueenA1 queenBlockedMap ⟨97, 1⟩ false := by
  decide

/-- Claim C5 fails on the code: the white king moving e1→e2 (a successful
non-castling king move) leaves both white castling-rights flags `true`,
because `updateCastlingRights` is called only inside the two castling
branches of `movePiece`, never on an ordinary king move. -/
theorem castling_rights_survive_king_move :
    (movePiece kingPairState ⟨101, 1⟩ ⟨101, 2⟩).1 = true
    ∧ (movePiece kingPairState ⟨101, 1⟩ ⟨101, 2⟩).2.whiteCastleKingSide = true
    ∧ (movePiece kingPairState ⟨101, 1⟩ ⟨101, 2⟩).2.whiteCastleQueenSide = true := by
  decide

/-- Claim C6 fails on the code: king-side castling e1→g1 with rights intact
and a white rook on h1 returns `true` and puts the king on g1, but f1 stays
empty and the rook's map entry stays on h1 — only the rook object's
recorded position is changed, and to e1 rather than f1, so the recorded
position disagrees with the occupancy map. -/
theorem castling_leaves_rook_on_h1 :
    (movePiece castlingState ⟨101, 1⟩ ⟨103, 1⟩).1 = true
    ∧ mapFind? (movePiece castlingState ⟨101, 1⟩ ⟨103, 1⟩).2.pieceMap ⟨103, 1⟩
        = some (some ⟨PieceKind.king, Color.WHITE, ⟨103, 1⟩, true⟩)
    ∧ mapFind? (movePiece castlingState ⟨101, 1⟩ ⟨103, 1⟩).2.pieceMap ⟨102, 1⟩ = none
    ∧ mapFind? (movePiece castlingState ⟨101, 1⟩ ⟨103, 1⟩).2.pieceMap ⟨104, 1⟩
        = some (some ⟨PieceKind.rook, Color.WHITE, ⟨101, 1⟩, false⟩) := by
  decide

/-- Claim C7 fails on the code: after White's pawn double push e2→e4 lands
next to the black pawn on d4, the resulting state has
`enPassantAvailable = false` (the unconditional reset at the end of
`movePiece`), the black pawn is still on d4, and the black pawn's
pseudo-legal move set does not contain the en-passant destination e3 — the
en-passant capture is never offered on the immediately following move. -/
theorem en_passant_capture_never_offered :
    (movePiece enPassantSetupState ⟨101, 2⟩ ⟨101, 4⟩).1 = true
    ∧ (movePiece enPassantSetupState ⟨101, 2⟩ ⟨101, 4⟩).2.lastMovePos = ⟨101, 4⟩
    ∧ (movePiece enPassantSetupState ⟨101, 2⟩ ⟨101, 4⟩).2.enPassantAvailable = false
    ∧ mapFind? (movePiece enPassantSetupState ⟨101, 2⟩ ⟨101, 4⟩).2.pieceMap ⟨100, 4⟩
        = some (some blackPawnD4)
    ∧ (⟨101, 3⟩ : Position) ∉
        legalMoves blackPawnD4
          (movePiece enPassantSetupState ⟨101, 2⟩ ⟨101, 4⟩).2.pieceMap
          (movePiece enPassantSetupState ⟨101, 2⟩ ⟨101, 4⟩).2.lastMovePos
          (movePiece enPassantSetupState ⟨101, 2⟩ ⟨101, 4⟩).2.enPassantAvailable := by
  decide

/-- Claim C8 fails on the code: the white knight on b1 includes d2 in its
pseudo-legal move set even though d2 is occupied by a white pawn — the
knight generation filters on board bounds only and never excludes
same-color-occupied destinations. -/
theorem knight_moves_include_own_pieces :
    mapFind? knightPawnMap ⟨100, 2⟩ = some (some whitePawnD2)
    ∧ whitePawnD2.color = whiteKnightB1.color
    ∧ (⟨100, 2⟩ : Position) ∈ legalMoves whiteKnightB1 knightPawnMap ⟨97, 1⟩ false := by
  decide

/-- Claim C9: for every board state and every (from, to) pair where no
entry occupies `from`, `movePiece` returns `false` and leaves the entire
board state — occupancy map, turn, last move, en-passant flag and all four
castling-rights flags — exactly unchanged. -/
theorem movePiece_empty_from_rejected (s : Board) (fromPos toPos : Position)
    (h : mapFind? s.pieceMap fromPos = none) :
    movePiece s fromPos toPos = (false, s) := by
  unfold movePiece
  rw [h]

/-- Witness for C9: on an empty board, moving from e4 fails without any
state change. -/
theorem movePiece_empty_from_rejected_witness :
    movePiece (boardWith []) ⟨101, 4⟩ ⟨101, 5⟩ = (false, boardWith []) :=
  movePiece_empty_from_rejected (boardWith []) ⟨101, 4⟩ ⟨101, 5⟩ (by decide)

/-- Claim C10: `movePiece` never reads the side-to-move.  For every state,
replacing the turn by an arbitrary color gives the same acceptance result
and the same board (occupancy map, last move, en-passant flag, castling
flags), except that the stored turn is flipped exactly once on success and
untouched on failure — so a piece of either color at `from` is movable
regardless of whose turn it is. -/
theorem movePiece_ignores_turn (s : Board) (c : Color) (fromPos toPos : Position) :
    movePiece { s with turn := c } fromPos toPos
      = ((movePiece s fromPos toPos).1,
         { (movePiece s fromPos toPos).2 with
             turn := if (movePiece s fromPos toPos).1 then oppColor c else c }) := by
  obtain ⟨pm, tn, lmp, epa, wk, wq, bk, bq⟩ := s
  unfold movePiece castleBranch
  simp only [canCastleKingSide, canCastleQueenSide]
  dsimp only
  repeat' split
  all_goals simp_all [finishMove, updateCastlingRights]

end ChessGame
